import Mathlib

/-!
Verification of `gotham_store` (src/lib.rs): a heterogeneous, type-indexed
single-value container `GothamStore` backed by a `BTreeMap<TypeId, Box<dyn Any>>`.

Shallow embedding:
* `TypeId` is modelled as `Nat`: Rust guarantees a stable, unique token per
  concrete type, so any infinite type with decidable equality is faithful.
* A Rust source-level type is a `RustType`: a diagnostic `name`
  (`std::any::type_name`) together with its identity token `id`
  (`std::any::TypeId`).  Two aliases of the same underlying type share `id`
  (and their values), while their `name`s may differ.
* The family `Val : TypeId → Type` gives, for each identity token, the Lean
  type of the Rust values carrying that token.
* `Box<dyn Any>` is `DynAny Val`: a value tagged with its runtime `TypeId`.
  `Any::downcast` succeeds iff the tag equals the requested identity.
* The `BTreeMap` is an association list; its iteration order is not
  observable through the API surface used by the specification (lookup,
  insert, remove, contains, len, is_empty), so the list model is faithful.
* Panics (`missing::<T>()`) are modelled with `Except String`, the error
  carrying the exact panic message built by `missing`.
* `&mut`-returning accessors are modelled by the value they expose; no claim
  depends on in-place mutation through the returned reference.
-/

namespace GothamSpec

/-- Model of `std::any::TypeId`: a stable unique token per concrete type. -/
abbrev TypeId := Nat

/-- A source-level Rust type as the store sees it: its diagnostic name
(`std::any::type_name::<T>()`) and its identity token (`TypeId::of::<T>()`).
Aliases of one underlying type have equal `id` (possibly distinct `name`). -/
structure RustType where
  name : String
  id : TypeId

/-- Model of `Box<dyn Any>`: a value tagged with the `TypeId` of its concrete
runtime type. -/
structure DynAny (Val : TypeId → Type) where
  tid : TypeId
  val : Val tid

/-- `Any::downcast_ref::<T>` / `downcast::<T>`: succeeds iff the runtime tag
matches the requested type identity. -/
def DynAny.downcast {Val : TypeId → Type} (T : TypeId) (d : DynAny Val) : Option (Val T) :=
  if h : d.tid = T then some (h ▸ d.val) else none

/-- `BTreeMap::insert`: the new binding for `k`, other keys untouched. -/
def mapInsert {α : Type} (k : TypeId) (v : α) (l : List (TypeId × α)) : List (TypeId × α) :=
  (k, v) :: l.filter (fun p => p.1 != k)

/-- `BTreeMap::get`. -/
def mapGet {α : Type} (k : TypeId) (l : List (TypeId × α)) : Option α :=
  (l.find? (fun p => p.1 == k)).map Prod.snd

/-- `BTreeMap::contains_key`. -/
def mapContains {α : Type} (k : TypeId) (l : List (TypeId × α)) : Bool :=
  l.any (fun p => p.1 == k)

/-- `BTreeMap::remove`: the removed binding (if any) and the remaining map. -/
def mapRemove {α : Type} (k : TypeId) (l : List (TypeId × α)) :
    Option α × List (TypeId × α) :=
  (mapGet k l, l.filter (fun p => p.1 != k))

/-- `GothamStore { data: BTreeMap<TypeId, Box<dyn Any>> }`. -/
structure GothamStore (Val : TypeId → Type) where
  data : List (TypeId × DynAny Val)

namespace GothamStore

variable {Val : TypeId → Type}

/-- `GothamStore::default()`: the empty store. -/
def default : GothamStore Val := ⟨[]⟩

/-- `pub fn put<T: 'static>(&mut self, t: T)`. -/
def put (s : GothamStore Val) (A : RustType) (v : Val A.id) : GothamStore Val :=
  ⟨mapInsert A.id ⟨A.id, v⟩ s.data⟩

/-- `pub fn has<T: 'static>(&self) -> bool`. -/
def has (s : GothamStore Val) (A : RustType) : Bool :=
  mapContains A.id s.data

/-- `pub fn try_borrow<T: 'static>(&self) -> Option<&T>`. -/
def try_borrow (s : GothamStore Val) (A : RustType) : Option (Val A.id) :=
  (mapGet A.id s.data).bind (fun b => b.downcast A.id)

/-- `fn missing<T: 'static>() -> !`: the panic message. -/
def missing (A : RustType) : String :=
  "required type " ++ A.name ++ " is not present in GothamStore container"

/-- `pub fn borrow<T: 'static>(&self) -> &T`; the panic is an `Except.error`
carrying the `missing` message. -/
def borrow (s : GothamStore Val) (A : RustType) : Except String (Val A.id) :=
  match s.try_borrow A with
  | some v => Except.ok v
  | none => Except.error (missing A)

/-- `pub fn try_borrow_mut<T: 'static>(&mut self) -> Option<&mut T>`:
same lookup as `try_borrow` (`get_mut` + `downcast_mut`). -/
def try_borrow_mut (s : GothamStore Val) (A : RustType) : Option (Val A.id) :=
  (mapGet A.id s.data).bind (fun b => b.downcast A.id)

/-- `pub fn borrow_mut<T: 'static>(&mut self) -> &mut T`. -/
def borrow_mut (s : GothamStore Val) (A : RustType) : Except String (Val A.id) :=
  match s.try_borrow_mut A with
  | some v => Except.ok v
  | none => Except.error (missing A)

/-- `pub fn try_take<T: 'static>(&mut self) -> Option<T>`:
`self.data.remove(&type_id).and_then(|b| b.downcast().ok()).map(|b| *b)`.
The result is the returned option together with the mutated store: note the
entry is removed before the downcast is attempted. -/
def try_take (s : GothamStore Val) (A : RustType) : Option (Val A.id) × GothamStore Val :=
  ((mapRemove A.id s.data).1.bind (fun b => b.downcast A.id),
   ⟨(mapRemove A.id s.data).2⟩)

/-- `pub fn take<T: 'static>(&mut self) -> T`; on absence the panic is an
`Except.error` carrying the `missing` message. -/
def take (s : GothamStore Val) (A : RustType) :
    Except String (Val A.id × GothamStore Val) :=
  match (s.try_take A).1 with
  | some v => Except.ok (v, (s.try_take A).2)
  | none => Except.error (missing A)

/-- `<GothamStore as Deref>::deref(..).len()`. -/
def len (s : GothamStore Val) : Nat := s.data.length

/-- `<GothamStore as Deref>::deref(..).is_empty()`. -/
def is_empty (s : GothamStore Val) : Bool := s.data.isEmpty

/-- Well-typedness: every entry keyed by a type identity holds a value whose
runtime tag is that identity. -/
def WellTyped (s : GothamStore Val) : Prop :=
  ∀ p ∈ s.data, p.2.tid = p.1

/-- Store states reachable from the empty store by the public operations. -/
inductive Reachable : GothamStore Val → Prop
  | default : Reachable GothamStore.default
  | put (s : GothamStore Val) (A : RustType) (v : Val A.id) :
      Reachable s → Reachable (GothamStore.put s A v)
  | take (s : GothamStore Val) (A : RustType) :
      Reachable s → Reachable (GothamStore.try_take s A).2

end GothamStore

/-- Value family for concrete instantiations: every type identity carries a
natural number payload. -/
abbrev NVal : TypeId → Type := fun _ => Nat

/-- Concrete sample type (mirrors `tests::MyStruct`). -/
def tyA : RustType := ⟨"gotham_store::tests::MyStruct", 0⟩

/-- Concrete sample type (mirrors `tests::AnotherStruct`). -/
def tyB : RustType := ⟨"gotham_store::tests::AnotherStruct", 1⟩

/-- Two names for the same underlying type (mirrors `tests::Alias1`). -/
def tyAlias1 : RustType := ⟨"alloc::string::String", 7⟩

/-- Two names for the same underlying type (mirrors `tests::Alias2`). -/
def tyAlias2 : RustType := ⟨"alloc::string::String", 7⟩

/-- A sample store holding one value of type `tyA`. -/
def sampleStore : GothamStore NVal := GothamStore.default.put tyA 5

section MapLemmas

variable {α : Type}

theorem find?_filter_ne (k k2 : TypeId) (h : k ≠ k2) (l : List (TypeId × α)) :
    (l.filter (fun p => p.1 != k)).find? (fun p => p.1 == k2) =
      l.find? (fun p => p.1 == k2) := by
  induction l with
  | nil => rfl
  | cons a t ih =>
    rw [List.filter_cons]
    by_cases ha : a.1 = k
    · have h1 : (a.1 != k) = false := by simp [ha]
      have h2 : ¬((a.1 == k2) = true) := by
        simp only [beq_iff_eq, ha]
        exact h
      rw [h1, if_neg (by simp),
        @List.find?_cons_of_neg _ (fun p => p.1 == k2) a t h2, ih]
    · have h1 : (a.1 != k) = true := by simp [ha]
      by_cases hb : a.1 = k2
      · rw [h1, if_pos rfl,
          @List.find?_cons_of_pos _ (fun p => p.1 == k2) a
            (List.filter (fun p => p.1 != k) t) (by simpa using hb),
          @List.find?_cons_of_pos _ (fun p => p.1 == k2) a t (by simpa using hb)]
      · rw [h1, if_pos rfl,
          @List.find?_cons_of_neg _ (fun p => p.1 == k2) a
            (List.filter (fun p => p.1 != k) t) (by simpa using hb),
          @List.find?_cons_of_neg _ (fun p => p.1 == k2) a t (by simpa using hb), ih]

theorem find?_filter_self (k : TypeId) (l : List (TypeId × α)) :
    (l.filter (fun p => p.1 != k)).find? (fun p => p.1 == k) = none := by
  rw [List.find?_eq_none]
  intro x hx
  have := (List.mem_filter.mp hx).2
  simpa using this

theorem any_filter_ne (k k2 : TypeId) (h : k ≠ k2) (l : List (TypeId × α)) :
    (l.filter (fun p => p.1 != k)).any (fun p => p.1 == k2) =
      l.any (fun p => p.1 == k2) := by
  induction l with
  | nil => rfl
  | cons a t ih =>
    rw [List.filter_cons]
    by_cases ha : a.1 = k
    · have h1 : (a.1 != k) = false := by simp [ha]
      have h2 : (a.1 == k2) = false := by
        simp only [beq_eq_false_iff_ne, ne_eq, ha]
        exact h
      rw [h1, if_neg (by simp), List.any_cons, h2, ih, Bool.false_or]
    · have h1 : (a.1 != k) = true := by simp [ha]
      rw [h1, if_pos rfl, List.any_cons, List.any_cons, ih]

theorem any_filter_self (k : TypeId) (l : List (TypeId × α)) :
    (l.filter (fun p => p.1 != k)).any (fun p => p.1 == k) = false := by
  rw [Bool.eq_false_iff]
  intro hx
  obtain ⟨x, hx1, hx2⟩ := List.any_eq_true.mp hx
  have := (List.mem_filter.mp hx1).2
  simp at hx2 this
  exact this hx2

theorem filter_of_not_contains (k : TypeId) (l : List (TypeId × α))
    (h : mapContains k l = false) : l.filter (fun p => p.1 != k) = l := by
  rw [List.filter_eq_self]
  intro a ha
  simp only [mapContains, List.any_eq_false] at h
  simpa using h a ha

theorem countP_filter_self (k : TypeId) (l : List (TypeId × α)) :
    (l.filter (fun p => p.1 != k)).countP (fun p => p.1 == k) = 0 := by
  rw [List.countP_eq_zero]
  intro a ha
  have := (List.mem_filter.mp ha).2
  simpa using this

end MapLemmas

namespace GothamStore

variable {Val : TypeId → Type}

theorem downcast_mk (T : TypeId) (v : Val T) :
    DynAny.downcast T (⟨T, v⟩ : DynAny Val) = some v := by
  simp [DynAny.downcast]

theorem has_put_self (s : GothamStore Val) (A : RustType) (v : Val A.id) :
    (s.put A v).has A = true := by
  simp [put, has, mapContains, mapInsert, List.any_cons]

theorem has_put_ne (s : GothamStore Val) {A B : RustType} (h : A.id ≠ B.id)
    (v : Val A.id) : (s.put A v).has B = s.has B := by
  unfold put has mapContains mapInsert
  rw [List.any_cons]
  have h2 : (A.id == B.id) = false := by simp [h]
  rw [h2, Bool.false_or, any_filter_ne A.id B.id h]

theorem try_borrow_put_self (s : GothamStore Val) (A : RustType) (v : Val A.id) :
    (s.put A v).try_borrow A = some v := by
  unfold put try_borrow mapGet mapInsert
  rw [@List.find?_cons_of_pos _ (fun p => p.1 == A.id) (A.id, ⟨A.id, v⟩)
    (s.data.filter (fun p => p.1 != A.id)) (by simp)]
  simp [DynAny.downcast]

theorem try_borrow_put_ne (s : GothamStore Val) {A B : RustType} (h : A.id ≠ B.id)
    (v : Val A.id) : (s.put A v).try_borrow B = s.try_borrow B := by
  unfold put try_borrow mapGet mapInsert
  rw [@List.find?_cons_of_neg _ (fun p => p.1 == B.id) (A.id, ⟨A.id, v⟩)
    (s.data.filter (fun p => p.1 != A.id)) (by simpa using h),
    find?_filter_ne A.id B.id h]

theorem try_take_fst (s : GothamStore Val) (A : RustType) :
    (s.try_take A).1 = s.try_borrow A := rfl

theorem try_take_snd (s : GothamStore Val) (A : RustType) :
    (s.try_take A).2 = ⟨s.data.filter (fun p => p.1 != A.id)⟩ := rfl

theorem has_try_take_snd_self (s : GothamStore Val) (A : RustType) :
    ((s.try_take A).2).has A = false := by
  rw [try_take_snd]
  unfold has mapContains
  exact any_filter_self A.id s.data

theorem try_borrow_try_take_snd_self (s : GothamStore Val) (A : RustType) :
    ((s.try_take A).2).try_borrow A = none := by
  rw [try_take_snd]
  unfold try_borrow mapGet
  rw [find?_filter_self]
  rfl

theorem has_try_take_snd_ne (s : GothamStore Val) {A B : RustType} (h : A.id ≠ B.id) :
    ((s.try_take A).2).has B = s.has B := by
  rw [try_take_snd]
  unfold has mapContains
  exact any_filter_ne A.id B.id h s.data

theorem try_borrow_try_take_snd_ne (s : GothamStore Val) {A B : RustType}
    (h : A.id ≠ B.id) : ((s.try_take A).2).try_borrow B = s.try_borrow B := by
  rw [try_take_snd]
  unfold try_borrow mapGet
  rw [find?_filter_ne A.id B.id h]

theorem try_borrow_of_not_has {s : GothamStore Val} {A : RustType}
    (hh : s.has A = false) : s.try_borrow A = none := by
  unfold has mapContains at hh
  unfold try_borrow mapGet
  rw [List.find?_eq_none.mpr (List.any_eq_false.mp hh)]
  rfl

theorem wellTyped_default : (GothamStore.default : GothamStore Val).WellTyped := by
  intro p hp
  simp [GothamStore.default] at hp

theorem wellTyped_put {s : GothamStore Val} (hs : s.WellTyped) (A : RustType)
    (v : Val A.id) : (s.put A v).WellTyped := by
  intro p hp
  simp only [put, mapInsert] at hp
  rcases List.mem_cons.mp hp with h | h
  · subst h
    rfl
  · exact hs p (List.mem_filter.mp h).1

theorem wellTyped_try_take {s : GothamStore Val} (hs : s.WellTyped) (A : RustType) :
    ((s.try_take A).2).WellTyped := by
  intro p hp
  rw [try_take_snd] at hp
  exact hs p (List.mem_filter.mp hp).1

theorem reachable_wellTyped {s : GothamStore Val} (h : Reachable s) : s.WellTyped := by
  induction h with
  | default => exact wellTyped_default
  | put s A v _ ih => exact wellTyped_put ih A v
  | take s A _ ih => exact wellTyped_try_take ih A

theorem mapGet_of_has {s : GothamStore Val} (hw : s.WellTyped) {A : RustType}
    (hh : s.has A = true) :
    ∃ d : DynAny Val, mapGet A.id s.data = some d ∧ d.tid = A.id := by
  unfold has mapContains at hh
  have h1 : (s.data.find? (fun p => p.1 == A.id)).isSome := by
    rw [List.find?_isSome]
    exact List.any_eq_true.mp hh
  obtain ⟨p0, hp0⟩ := Option.isSome_iff_exists.mp h1
  refine ⟨p0.2, ?_, ?_⟩
  · unfold mapGet
    rw [hp0]
    rfl
  · have hm := List.mem_of_find?_eq_some hp0
    have hp := List.find?_some hp0
    have hq : p0.1 = A.id := by simpa using hp
    rw [hw p0 hm, hq]

theorem try_borrow_isSome_of_has {s : GothamStore Val} (hw : s.WellTyped)
    {A : RustType} (hh : s.has A = true) : ∃ v, s.try_borrow A = some v := by
  obtain ⟨d, hd, ht⟩ := mapGet_of_has hw hh
  refine ⟨ht ▸ d.val, ?_⟩
  unfold try_borrow
  rw [hd]
  show DynAny.downcast A.id d = some (ht ▸ d.val)
  unfold DynAny.downcast
  rw [dif_pos ht]

theorem try_borrow_mut_eq (s : GothamStore Val) (A : RustType) :
    s.try_borrow_mut A = s.try_borrow A := rfl

theorem countP_put (s : GothamStore Val) (A : RustType) (v : Val A.id) :
    (s.put A v).data.countP (fun p => p.1 == A.id) = 1 := by
  show List.countP _ ((A.id, (⟨A.id, v⟩ : DynAny Val)) ::
    s.data.filter (fun p => p.1 != A.id)) = 1
  rw [List.countP_cons, countP_filter_self]
  simp

end GothamStore

/-- C1: for every type `T` and value `v`, after `put(v)` on any store, `has::<T>()`
returns true and `borrow::<T>()` yields (as `Except.ok`) a value equal to `v`. -/
theorem C1_put_then_has_and_borrow {Val : TypeId → Type} (s : GothamStore Val)
    (A : RustType) (v : Val A.id) :
    (s.put A v).has A = true ∧ (s.put A v).borrow A = Except.ok v := by
  refine ⟨GothamStore.has_put_self s A v, ?_⟩
  unfold GothamStore.borrow
  rw [GothamStore.try_borrow_put_self s A v]

/-- C2: `put(v1)` then `put(v2)` for the same type leaves the store with exactly
one entry keyed by that type identity, and its value is `v2`. -/
theorem C2_put_overwrites {Val : TypeId → Type} (s : GothamStore Val)
    (A : RustType) (v1 v2 : Val A.id) :
    ((s.put A v1).put A v2).data.countP (fun p => p.1 == A.id) = 1 ∧
    ((s.put A v1).put A v2).try_borrow A = some v2 :=
  ⟨GothamStore.countP_put (s.put A v1) A v2,
   GothamStore.try_borrow_put_self (s.put A v1) A v2⟩

/-- C3: after a successful `try_take::<T>()` (hence also `take::<T>()`), `has` is
false, subsequent `try_borrow`/`try_take` return none, and the taken value is
the one that was stored (`try_borrow` observed it before the take). -/
theorem C3_take_removes {Val : TypeId → Type} (s : GothamStore Val)
    (A : RustType) (v : Val A.id) (h : (s.try_take A).1 = some v) :
    s.try_borrow A = some v ∧
    s.take A = Except.ok (v, (s.try_take A).2) ∧
    ((s.try_take A).2).has A = false ∧
    ((s.try_take A).2).try_borrow A = none ∧
    (((s.try_take A).2).try_take A).1 = none := by
  refine ⟨?_, ?_, GothamStore.has_try_take_snd_self s A,
    GothamStore.try_borrow_try_take_snd_self s A, ?_⟩
  · rw [← GothamStore.try_take_fst]
    exact h
  · unfold GothamStore.take
    rw [h]
  · rw [GothamStore.try_take_fst]
    exact GothamStore.try_borrow_try_take_snd_self s A

/-- Witness for C3 at a concrete store holding `5` at `tyA`. -/
theorem C3_take_removes_witness :
    sampleStore.try_borrow tyA = some 5 ∧
    sampleStore.take tyA = Except.ok (5, (sampleStore.try_take tyA).2) ∧
    ((sampleStore.try_take tyA).2).has tyA = false ∧
    ((sampleStore.try_take tyA).2).try_borrow tyA = none ∧
    (((sampleStore.try_take tyA).2).try_take tyA).1 = none :=
  C3_take_removes sampleStore tyA 5 rfl

/-- C4: on every store state the program can construct (reachable from the
empty store by the public operations), `try_borrow::<T>()` returns none iff
`has::<T>()` is false: a present entry is never reported as a failed downcast. -/
theorem C4_try_borrow_none_iff_not_has {Val : TypeId → Type} {s : GothamStore Val}
    (h : GothamStore.Reachable s) (A : RustType) :
    s.try_borrow A = none ↔ s.has A = false := by
  have hw := GothamStore.reachable_wellTyped h
  constructor
  · intro hn
    cases hh : s.has A with
    | false => rfl
    | true =>
      obtain ⟨v, hv⟩ := GothamStore.try_borrow_isSome_of_has hw hh
      rw [hv] at hn
      exact Option.noConfusion hn
  · exact GothamStore.try_borrow_of_not_has

/-- Witness for C4 at the concrete reachable store `sampleStore` and the
absent type `tyB`. -/
theorem C4_try_borrow_none_iff_not_has_witness :
    sampleStore.try_borrow tyB = none ↔ sampleStore.has tyB = false :=
  C4_try_borrow_none_iff_not_has
    (GothamStore.Reachable.put GothamStore.default tyA 5 GothamStore.Reachable.default) tyB

/-- C5: when no value of type `T` is present, `borrow`, `borrow_mut` and `take`
fail fatally (modelled as `Except.error`) with the panic message, which names
the missing type. -/
theorem C5_fatal_absence {Val : TypeId → Type} (s : GothamStore Val)
    (A : RustType) (h : s.has A = false) :
    s.borrow A = Except.error (GothamStore.missing A) ∧
    s.borrow_mut A = Except.error (GothamStore.missing A) ∧
    s.take A = Except.error (GothamStore.missing A) ∧
    GothamStore.missing A =
      "required type " ++ A.name ++ " is not present in GothamStore container" := by
  have hn := GothamStore.try_borrow_of_not_has h
  refine ⟨?_, ?_, ?_, rfl⟩
  · unfold GothamStore.borrow
    rw [hn]
  · unfold GothamStore.borrow_mut
    rw [GothamStore.try_borrow_mut_eq, hn]
  · unfold GothamStore.take
    rw [GothamStore.try_take_fst, hn]

/-- Witness for C5 at the empty store and the absent type `tyA`. -/
theorem C5_fatal_absence_witness :
    (GothamStore.default : GothamStore NVal).borrow tyA =
      Except.error (GothamStore.missing tyA) ∧
    (GothamStore.default : GothamStore NVal).borrow_mut tyA =
      Except.error (GothamStore.missing tyA) ∧
    (GothamStore.default : GothamStore NVal).take tyA =
      Except.error (GothamStore.missing tyA) ∧
    GothamStore.missing tyA =
      "required type " ++ tyA.name ++ " is not present in GothamStore container" :=
  C5_fatal_absence GothamStore.default tyA rfl

/-- C6: `try_take::<T>()` on a store without `T` returns none and leaves the
store unchanged. -/
theorem C6_try_take_absent {Val : TypeId → Type} (s : GothamStore Val)
    (A : RustType) (h : s.has A = false) :
    s.try_take A = (none, s) := by
  have hfst : (s.try_take A).1 = none := by
    rw [GothamStore.try_take_fst]
    exact GothamStore.try_borrow_of_not_has h
  have hsnd : (s.try_take A).2 = s := by
    rw [GothamStore.try_take_snd, filter_of_not_contains A.id s.data h]
  calc s.try_take A = ((s.try_take A).1, (s.try_take A).2) := rfl
    _ = (none, s) := by rw [hfst, hsnd]

/-- Witness for C6 at `sampleStore` and the absent type `tyB`. -/
theorem C6_try_take_absent_witness :
    sampleStore.try_take tyB = (none, sampleStore) :=
  C6_try_take_absent sampleStore tyB rfl

/-- C7: operations on a type `T1` (put, take) do not change the presence or
the observed content for a distinct type `T2`. -/
theorem C7_frame {Val : TypeId → Type} (s : GothamStore Val) (A B : RustType)
    (h : A.id ≠ B.id) (v : Val A.id) :
    (s.put A v).has B = s.has B ∧
    (s.put A v).try_borrow B = s.try_borrow B ∧
    ((s.try_take A).2).has B = s.has B ∧
    ((s.try_take A).2).try_borrow B = s.try_borrow B :=
  ⟨GothamStore.has_put_ne s h v, GothamStore.try_borrow_put_ne s h v,
   GothamStore.has_try_take_snd_ne s h, GothamStore.try_borrow_try_take_snd_ne s h⟩

/-- Witness for C7: putting at `tyB` does not disturb the entry at `tyA`. -/
theorem C7_frame_witness :
    (sampleStore.put tyB 9).has tyA = sampleStore.has tyA ∧
    (sampleStore.put tyB 9).try_borrow tyA = sampleStore.try_borrow tyA ∧
    ((sampleStore.try_take tyB).2).has tyA = sampleStore.has tyA ∧
    ((sampleStore.try_take tyB).2).try_borrow tyA = sampleStore.try_borrow tyA :=
  C7_frame sampleStore tyB tyA (by decide) 9

/-- C8: a fresh (default) store has size 0 and is empty; after one `put` it has
size 1 and is not empty; `take` of that entry succeeds with the stored value
and returns the store to the empty state (size 0, empty). -/
theorem C8_size_tracking {Val : TypeId → Type} (A : RustType) (v : Val A.id) :
    (GothamStore.default : GothamStore Val).len = 0 ∧
    (GothamStore.default : GothamStore Val).is_empty = true ∧
    ((GothamStore.default : GothamStore Val).put A v).len = 1 ∧
    ((GothamStore.default : GothamStore Val).put A v).is_empty = false ∧
    ((GothamStore.default : GothamStore Val).put A v).take A =
      Except.ok (v, (GothamStore.default : GothamStore Val)) := by
  refine ⟨rfl, rfl, rfl, rfl, ?_⟩
  unfold GothamStore.take
  rw [GothamStore.try_take_fst, GothamStore.try_borrow_put_self]
  have hsnd : ((GothamStore.default.put A v).try_take A).2 =
      (GothamStore.default : GothamStore Val) := by
    rw [GothamStore.try_take_snd]
    show (⟨List.filter _ [(A.id, ⟨A.id, v⟩)]⟩ : GothamStore Val) = ⟨[]⟩
    simp [List.filter_cons]
  rw [hsnd]

/-- C9: two source-level type names with the same underlying type identity are
one key to the store: a value put under either is observed by
`try_borrow`/`try_take` under the other, a second `put` under either name
overwrites the single shared entry, and taking via one name makes the entry
absent for both. -/
theorem C9_alias_collision {Val : TypeId → Type} (s : GothamStore Val)
    (A1 A2 : RustType) (h : A1.id = A2.id) (v : Val A1.id) (v2 : Val A2.id) :
    (s.put A1 v).has A2 = true ∧
    (s.put A1 v).try_borrow A2 = some (h ▸ v) ∧
    ((s.put A1 v).try_take A2).1 = some (h ▸ v) ∧
    ((s.put A1 v).put A2 v2).data.countP (fun p => p.1 == A1.id) = 1 ∧
    ((s.put A1 v).put A2 v2).try_borrow A1 = some (h.symm ▸ v2) ∧
    ((s.put A1 v).try_take A2).2.has A1 = false ∧
    ((s.put A1 v).try_take A2).2.has A2 = false := by
  obtain ⟨n1, i1⟩ := A1
  obtain ⟨n2, i2⟩ := A2
  have h2 : i1 = i2 := h
  subst h2
  exact ⟨GothamStore.has_put_self s ⟨n1, i1⟩ v,
    GothamStore.try_borrow_put_self s ⟨n1, i1⟩ v,
    GothamStore.try_borrow_put_self s ⟨n1, i1⟩ v,
    GothamStore.countP_put (s.put ⟨n1, i1⟩ v) ⟨n2, i1⟩ v2,
    GothamStore.try_borrow_put_self (s.put ⟨n1, i1⟩ v) ⟨n2, i1⟩ v2,
    GothamStore.has_try_take_snd_self (s.put ⟨n1, i1⟩ v) ⟨n2, i1⟩,
    GothamStore.has_try_take_snd_self (s.put ⟨n1, i1⟩ v) ⟨n2, i1⟩⟩

/-- Witness for C9 at the two concrete aliases `tyAlias1`/`tyAlias2`. -/
theorem C9_alias_collision_witness :
    ((GothamStore.default : GothamStore NVal).put tyAlias1 3).has tyAlias2 = true ∧
    ((GothamStore.default : GothamStore NVal).put tyAlias1 3).try_borrow tyAlias2 =
      some 3 ∧
    (((GothamStore.default : GothamStore NVal).put tyAlias1 3).try_take tyAlias2).1 =
      some 3 ∧
    (((GothamStore.default : GothamStore NVal).put tyAlias1 3).put
      tyAlias2 4).data.countP (fun p => p.1 == tyAlias1.id) = 1 ∧
    (((GothamStore.default : GothamStore NVal).put tyAlias1 3).put
      tyAlias2 4).try_borrow tyAlias1 = some 4 ∧
    (((GothamStore.default : GothamStore NVal).put tyAlias1 3).try_take
      tyAlias2).2.has tyAlias1 = false ∧
    (((GothamStore.default : GothamStore NVal).put tyAlias1 3).try_take
      tyAlias2).2.has tyAlias2 = false :=
  C9_alias_collision GothamStore.default tyAlias1 tyAlias2 rfl 3 4

/-- C10: every store reachable from the empty store by the public operations is
well-typed (each entry's runtime tag equals its key), so on a present entry the
internal downcasts of `try_borrow`, `try_borrow_mut` and `try_take` succeed. -/
theorem C10_well_typed_invariant {Val : TypeId → Type} {s : GothamStore Val}
    (h : GothamStore.Reachable s) (A : RustType) :
    s.WellTyped ∧
    (s.has A = true →
      (s.try_borrow A).isSome = true ∧
      (s.try_borrow_mut A).isSome = true ∧
      ((s.try_take A).1).isSome = true) := by
  have hw := GothamStore.reachable_wellTyped h
  refine ⟨hw, fun hh => ?_⟩
  obtain ⟨v, hv⟩ := GothamStore.try_borrow_isSome_of_has hw hh
  rw [GothamStore.try_borrow_mut_eq, GothamStore.try_take_fst, hv]
  exact ⟨rfl, rfl, rfl⟩

/-- Witness for C10 at the concrete reachable store `sampleStore` and type `tyA`. -/
theorem C10_well_typed_invariant_witness :
    sampleStore.WellTyped ∧
    (sampleStore.has tyA = true →
      (sampleStore.try_borrow tyA).isSome = true ∧
      (sampleStore.try_borrow_mut tyA).isSome = true ∧
      ((sampleStore.try_take tyA).1).isSome = true) :=
  C10_well_typed_invariant
    (GothamStore.Reachable.put GothamStore.default tyA 5 GothamStore.Reachable.default) tyA

end GothamSpec
